import Mathlib

/-!
Shallow embedding of the insidecve ingestion pipeline.

The definitions below are direct translations of the Python sources:
  * `src/src/cvedetails_fetcher.py` (severity bucketing in `_extract_details`)
  * `src/src/data_fetcher.py`       (`fetch_v5_cve` path construction)
  * `src/src/storage.py`            (`save_cve`, `add_product_mapping`,
                                     `get_existing_cve_ids`)
  * `src/src/normalizer.py`         (`normalize`)
  * `src/app.py`                    (`build_vendor_data` update-only path,
                                     `load_and_process` KEV pass)
Machine floats become rationals, SQL tables become lists of rows, and
fallible Python code returns `Option`.
-/

namespace InsideCVE

/-! ## Python string primitives

The code only ever splits on single-character separators (`"-"`, `","`,
`";"`, `":"`), so Python's `str.split`, `str.strip` and slicing are
embedded at the character level. -/

/-- Python `s.split(sep)` for a one-character separator, on the character
list: splitting the empty string yields one empty field. -/
def splitChar (sep : Char) : List Char → List (List Char)
  | [] => [[]]
  | c :: cs =>
    match splitChar sep cs with
    | [] => [[]]
    | h :: t => if c = sep then [] :: h :: t else (c :: h) :: t

/-- Python `s.split(sep)` for a one-character separator. -/
def pySplit (s : String) (sep : Char) : List String :=
  (splitChar sep s.data).map (fun l => ⟨l⟩)

/-- Python `s.strip()`: drop leading and trailing whitespace. -/
def pyStrip (s : String) : String :=
  ⟨((s.data.dropWhile Char.isWhitespace).reverse.dropWhile Char.isWhitespace).reverse⟩

/-- Python `s[:n]` (and `s[0]` as the one-character prefix via `n = 1`). -/
def pyTake (s : String) (n : Nat) : String :=
  ⟨s.data.take n⟩

/-! ## Severity bucketing (cvedetails_fetcher.py, `_extract_details`) -/

/-- The severity bucket chain of `_extract_details`: the Python code runs
`if score >= 9.0: "CRITICAL" elif score >= 7.0: "HIGH" elif score >= 4.0:
"MEDIUM" elif score > 0: "LOW" else: "NONE"`.  Scores are rationals here. -/
def deriveSeverity (score : ℚ) : String :=
  if score ≥ 9 then "CRITICAL"
  else if score ≥ 7 then "HIGH"
  else if score ≥ 4 then "MEDIUM"
  else if score > 0 then "LOW"
  else "NONE"

/-! ## CVE-list-v5 path construction (data_fetcher.py, `fetch_v5_cve`) -/

/-- Group-directory logic of `fetch_v5_cve`: `"0xxx"` when the numeric
suffix has fewer than 4 characters, `id_num[0] + "xxx"` at exactly 4, and
`id_num[:-3] + "xxx"` for 5 or more. -/
def v5Group (id_num : String) : String :=
  if id_num.length < 4 then "0xxx"
  else if id_num.length = 4 then pyTake id_num 1 ++ "xxx"
  else pyTake id_num (id_num.length - 3) ++ "xxx"

def v5BaseUrl : String :=
  "https://raw.githubusercontent.com/CVEProject/cvelistV5/main/cves"

/-- The URL `fetch_v5_cve` builds:
`f"{self.v5_base_url}/{year}/{group}/{cve_id}.json"`. -/
def v5Url (year id_num cve_id : String) : String :=
  v5BaseUrl ++ "/" ++ year ++ "/" ++ v5Group id_num ++ "/" ++ cve_id ++ ".json"

/-- Outcome of one `fetch_v5_cve` call: the returned payload, the URL it
requested over the network (if any), and the cache files it wrote. -/
structure V5FetchResult (α : Type) where
  result : Option α
  requestedUrl : Option String
  cacheWrites : List (String × α)
  deriving Repr, DecidableEq

/-- `fetch_v5_cve`: consult the on-disk cache first; reject CVE IDs that do
not split into exactly three dash-separated parts; otherwise build the
deterministic URL `<base>/<year>/<group>/<cve_id>.json` and issue one GET.
`responses` maps a URL to the payload a successful request would return
(`none` covers 404 and any other request failure, both of which make the
Python function return `None`). -/
def fetchV5Cve {α : Type} (cache : List (String × α)) (responses : String → Option α)
    (cve_id : String) : V5FetchResult α :=
  match cache.lookup cve_id with
  | some d => ⟨some d, none, []⟩
  | none =>
    match pySplit cve_id '-' with
    | [_, year, id_num] =>
      match responses (v5Url year id_num cve_id) with
      | none => ⟨none, some (v5Url year id_num cve_id), []⟩
      | some data => ⟨some data, some (v5Url year id_num cve_id), [(cve_id, data)]⟩
    | _ => ⟨none, none, []⟩

/-- Bucket prefix as the spec describes it: first N−3 digits of the suffix
when it has 5 or more digits, the first digit at exactly 4, else the fixed
fallback `"0"`.  Stated from the spec's words, to be compared with
`v5Group`. -/
def specBucket (suffix : String) : String :=
  if suffix.length ≥ 5 then pyTake suffix (suffix.length - 3)
  else if suffix.length = 4 then pyTake suffix 1
  else "0"

/-! ## Storage engine (storage.py) -/

/-- One row of the `cves` table (scalar columns of `_init_schema`). -/
structure CveRow where
  cve_id : String
  vendor_id : Option String
  published_date : Option String
  last_modified_date : Option String
  description_en : Option String
  source_flags : Option String
  cvss_v31_base_score : Option ℚ
  cvss_v31_severity : Option String
  cvss_v31_vector : Option String
  cvss_v4_base_score : Option ℚ
  cvss_v4_severity : Option String
  cvss_v4_vector : Option String
  deriving Repr, DecidableEq

/-- One row of the `weaknesses` table; its primary key is the whole row. -/
structure WeaknessRow where
  cve_id : String
  cwe_id : String
  deriving Repr, DecidableEq

/-- One row of the `cve_references` table (no key, duplicates allowed). -/
structure ReferenceRow where
  cve_id : String
  url : String
  deriving Repr, DecidableEq

/-- One row of the `products` table (no key, duplicates allowed). -/
structure ProductRow where
  cve_id : String
  raw_cpe : String
  vendor : String
  product : String
  version : String
  deriving Repr, DecidableEq

/-- The four tables `save_cve` and `add_product_mapping` touch, each as the
list of its rows in insertion order. -/
structure Db where
  cves : List CveRow
  weaknesses : List WeaknessRow
  cve_references : List ReferenceRow
  products : List ProductRow
  deriving Repr, DecidableEq

def emptyDb : Db := ⟨[], [], [], []⟩

/-- The dict handed to `save_cve`.  String-typed multi-valued fields carry
the delimiter-joined encodings the normalizer produces; a missing or `None`
Python value is the empty string (both are falsy where the code checks). -/
structure CveRecord where
  cve_id : String
  vendor_id : Option String
  published_date : Option String
  last_modified_date : Option String
  description_en : Option String
  source_flags : Option String
  cvss_v31_base_score : Option ℚ
  cvss_v31_severity : Option String
  cvss_v31_vector : Option String
  cvss_v4_base_score : Option ℚ
  cvss_v4_severity : Option String
  cvss_v4_vector : Option String
  cwe_ids : String
  reference_urls : String
  products : String
  deriving Repr, DecidableEq

/-- Python's `a or b` on optional strings: `a` unless it is falsy
(`None` or `""`). -/
def pyOr (a b : Option String) : Option String :=
  match a with
  | some s => if s = "" then b else some s
  | none => b

/-- Append a row unless it is already present.  This is both the semantics
of `INSERT OR IGNORE INTO weaknesses` (whose primary key is the whole row)
and of the `unique_products` set check in the product loop of `save_cve`. -/
def insertNew {α : Type} [DecidableEq α] (l : List α) (x : α) : List α :=
  if x ∈ l then l else l ++ [x]

/-- `INSERT OR IGNORE INTO weaknesses`: the primary key is the full
`(cve_id, cwe_id)` pair, so the insert is skipped exactly when the row is
already present. -/
def insertOrIgnoreWeakness (l : List WeaknessRow) (r : WeaknessRow) : List WeaknessRow :=
  insertNew l r

/-- The "Simple CPE 2.3 parser" inside `save_cve`: split the token on `":"`
and read vendor / product / version at positions 3 / 4 / 5, falling back to
`"unknown"` when the token has too few fields.  `raw_cpe` keeps the raw
token. -/
def parseCpeToken (cve_id tok : String) : ProductRow :=
  let parts := pySplit tok ':'
  { cve_id := cve_id
    raw_cpe := tok
    vendor := if 3 < parts.length then parts.getD 3 "unknown" else "unknown"
    product := if 4 < parts.length then parts.getD 4 "unknown" else "unknown"
    version := if 5 < parts.length then parts.getD 5 "unknown" else "unknown" }

/-- The product loop of `save_cve`: walk the semicolon-delimited tokens,
skip blank ones, parse each, and insert a row only when its full tuple has
not been inserted earlier in this same call. -/
def savedProductRows (cve_id productsStr : String) : List ProductRow :=
  ((pySplit productsStr ';').filter (fun p => pyStrip p ≠ "")).foldl
    (fun acc p => insertNew acc (parseCpeToken cve_id p)) []

/-- The `weaknesses` rows one `save_cve` call inserts: one per stripped
non-blank comma token, first occurrence kept. -/
def savedWeaknessRows (cve_id cweStr : String) : List WeaknessRow :=
  ((pySplit cweStr ',').filter (fun c => pyStrip c ≠ "")).foldl
    (fun acc c => insertNew acc ⟨cve_id, pyStrip c⟩) []

/-- The `cve_references` rows one `save_cve` call inserts: one per stripped
non-blank comma token, duplicates kept (plain `INSERT`). -/
def savedReferenceRows (cve_id urlStr : String) : List ReferenceRow :=
  ((pySplit urlStr ',').filter (fun u => pyStrip u ≠ "")).map
    (fun u => (⟨cve_id, pyStrip u⟩ : ReferenceRow))

/-- The `cves` row `save_cve` upserts (`vendor_id or record.get("vendor_id")`). -/
def savedCveRow (record : CveRecord) (vendor_id : Option String) : CveRow :=
  { cve_id := record.cve_id
    vendor_id := pyOr vendor_id record.vendor_id
    published_date := record.published_date
    last_modified_date := record.last_modified_date
    description_en := record.description_en
    source_flags := record.source_flags
    cvss_v31_base_score := record.cvss_v31_base_score
    cvss_v31_severity := record.cvss_v31_severity
    cvss_v31_vector := record.cvss_v31_vector
    cvss_v4_base_score := record.cvss_v4_base_score
    cvss_v4_severity := record.cvss_v4_severity
    cvss_v4_vector := record.cvss_v4_vector }

/-- `Storage.save_cve`, statement by statement: (1) `INSERT OR REPLACE`
into `cves` keyed by `cve_id`; (2) delete the CVE's `weaknesses` rows, then
`INSERT OR IGNORE` one row per stripped non-blank comma token; (3) delete
its `cve_references` rows, then plainly insert one row per stripped
non-blank comma token; (4) delete its `products` rows, then insert the
parsed, per-call-deduplicated product tuples.  The `INSERT OR REPLACE`
upsert is modelled relationally as remove-then-append. -/
def saveCve (db : Db) (record : CveRecord) (vendor_id : Option String) : Db :=
  let cve_id := record.cve_id
  let cves1 := db.cves.filter (fun c => c.cve_id ≠ cve_id) ++ [savedCveRow record vendor_id]
  let w0 := db.weaknesses.filter (fun w => w.cve_id ≠ cve_id)
  let w1 :=
    if record.cwe_ids = "" then w0
    else
      ((pySplit record.cwe_ids ',').filter (fun c => pyStrip c ≠ "")).foldl
        (fun acc c => insertOrIgnoreWeakness acc ⟨cve_id, pyStrip c⟩) w0
  let r0 := db.cve_references.filter (fun r => r.cve_id ≠ cve_id)
  let r1 :=
    if record.reference_urls = "" then r0
    else r0 ++ savedReferenceRows cve_id record.reference_urls
  let p0 := db.products.filter (fun p => p.cve_id ≠ cve_id)
  let p1 :=
    if record.products = "" then p0
    else p0 ++ savedProductRows cve_id record.products
  { cves := cves1, weaknesses := w1, cve_references := r1, products := p1 }

/-- `Storage.add_product_mapping`: a single plain `INSERT` into `products`
with an empty raw CPE and version `"*"`. -/
def addProductMapping (db : Db) (cve_id product_name vendor_name : String) : Db :=
  { db with products := db.products ++ [⟨cve_id, "", vendor_name, product_name, "*"⟩] }

/-- `Storage.get_existing_cve_ids`: the CVE IDs currently stored, filtered
by vendor when one is supplied (Python's `if vendor_id:` treats `""` as no
filter). -/
def getExistingCveIds (db : Db) (vendor_id : Option String) : List String :=
  match vendor_id with
  | some v =>
    if v = "" then db.cves.map (fun c => c.cve_id)
    else (db.cves.filter (fun c => c.vendor_id = some v)).map (fun c => c.cve_id)
  | none => db.cves.map (fun c => c.cve_id)

/-! ## Normalizer (normalizer.py, `Normalizer.normalize`) -/

/-- One `{lang, value}` entry of a descriptions array; either key may be
absent. -/
structure LangVal where
  lang : Option String
  value : Option String
  deriving Repr, DecidableEq

/-- The parts of an NVD `cve` object the date/description logic reads. -/
structure NvdCve where
  published : Option String
  lastModified : Option String
  descriptions : List LangVal
  deriving Repr, DecidableEq

/-- One entry of the NVD `vulnerabilities` array; `.get("cve", {})`
defaults a missing `cve` key to the empty object. -/
structure NvdVuln where
  cve : Option NvdCve
  deriving Repr, DecidableEq

/-- An NVD payload: `vulnerabilities` is `some` exactly when the key is
present in the dict.  `none` at the payload level stands for a falsy
`nvd_data` (Python `None` or the empty dict), so the guard
`nvd_data and "vulnerabilities" in nvd_data` passes exactly when the
payload is `some p` with `p.vulnerabilities = some l`. -/
structure NvdPayload where
  vulnerabilities : Option (List NvdVuln)
  deriving Repr, DecidableEq

/-- The `cveMetadata` object of a v5 payload. -/
structure V5Meta where
  datePublished : Option String
  dateUpdated : Option String
  deriving Repr, DecidableEq

/-- The `containers.cna` object of a v5 payload. -/
structure V5Cna where
  descriptions : List LangVal
  deriving Repr, DecidableEq

/-- A v5 payload; `none` fields model absent keys (the code defaults them
to empty objects via `.get(..., {})`). -/
structure V5Payload where
  cveMetadata : Option V5Meta
  containers_cna : Option V5Cna
  deriving Repr, DecidableEq

/-- Python falsiness of an optional string: `None` or `""`. -/
def pyFalsy (o : Option String) : Bool :=
  match o with
  | none => true
  | some s => s = ""

/-- The fields of the normalized record the date/description claims are
about (`source_flags` already joined as in the final cleanup). -/
structure NormRecord where
  cve_id : String
  published_date : Option String
  last_modified_date : Option String
  description_en : Option String
  source_flags : String
  deriving Repr, DecidableEq

/-- The NVD phase of `normalize`, returning the record's
`(published_date, last_modified_date, description_en)` after it.  The
record starts with `None` dates and the empty-string description; when the
guard passes, `vulnerabilities[0]` is read with no emptiness check, so an
empty array raises `IndexError` — modelled as `none`.  The description
loop takes the `value` of the first entry whose `lang` is `"en"`. -/
def nvdPhase (nvd : Option NvdPayload) :
    Option (Option String × Option String × Option String) :=
  match nvd with
  | some payload =>
    match payload.vulnerabilities with
    | some vulns =>
      match vulns.head? with
      | none => none
      | some v =>
        let item := v.cve.getD ⟨none, none, []⟩
        let desc :=
          match item.descriptions.find? (fun d => d.lang = some "en") with
          | some d => d.value
          | none => some ""
        some (item.published, item.lastModified, desc)
    | none => some (none, none, some "")
  | none => some (none, none, some "")

/-- `Normalizer.normalize`, restricted to the reconciled fields the claims
concern (dates, English description, source flags).  NVD is processed
first; the v5 phase only fills a field whose current value is falsy.
`none` is the `IndexError` escape of the NVD phase. -/
def normalize (cve_id : String) (nvd : Option NvdPayload) (v5 : Option V5Payload) :
    Option NormRecord :=
  match nvdPhase nvd with
  | none => none
  | some (pub1, mod1, desc1) =>
    let flags1 :=
      match nvd with
      | some payload => if payload.vulnerabilities.isSome then ["nvd"] else []
      | none => []
    match v5 with
    | none => some ⟨cve_id, pub1, mod1, desc1, String.intercalate "," flags1⟩
    | some p =>
      let meta := p.cveMetadata.getD ⟨none, none⟩
      let cna := p.containers_cna.getD ⟨[]⟩
      let pub2 := if pyFalsy pub1 then meta.datePublished else pub1
      let mod2 := if pyFalsy mod1 then meta.dateUpdated else mod1
      let desc2 :=
        if pyFalsy desc1 then
          match cna.descriptions.find? (fun d => d.lang = some "en") with
          | some d => d.value
          | none => desc1
        else desc1
      some ⟨cve_id, pub2, mod2, desc2, String.intercalate "," (flags1 ++ ["v5"])⟩

/-- What v5 supplies as English description: the `value` of the first
`lang = "en"` entry of `containers.cna.descriptions`, when the payload and
such an entry exist. -/
def v5Desc (v5 : Option V5Payload) : Option (Option String) :=
  match v5 with
  | none => none
  | some p =>
    ((p.containers_cna.getD ⟨[]⟩).descriptions.find? (fun d => d.lang = some "en")).map
      (fun d => d.value)

/-! ## KEV status update -/

/-- The `cves` columns the KEV pass touches. -/
structure KevRow where
  cve_id : String
  is_kev : Bool
  deriving Repr, DecidableEq

/-- Modelled from the spec: `Storage.update_kev_status` is called by the
dashboard (`app.py`, `load_and_process`) but its implementation is absent
from the sources; per the spec it "sets `is_kev = true` for every row whose
cve_id is in the supplied set and currently has `is_kev = false`" and
"returns the count actually flipped".  The `cves` table is the list of its
rows; the result is the flipped count paired with the updated table. -/
def updateKevStatus (rows : List KevRow) (kevIds : List String) : Nat × List KevRow :=
  (rows.countP (fun r => decide (r.cve_id ∈ kevIds) && !r.is_kev),
   rows.map (fun r =>
     if r.cve_id ∈ kevIds ∧ r.is_kev = false then { r with is_kev := true } else r))

/-! ## Update-only build path (app.py, `build_vendor_data`) -/

/-- The per-CVE dict `CVEDetailsFetcher._extract_details` yields (fields
`build_vendor_data` reads when saving). -/
structure FetchedDetail where
  published_date : Option String
  last_modified : Option String
  description : Option String
  cvss_v31_base_score : Option ℚ
  cvss_v31_severity : Option String
  cvss_vector : Option String
  cwe_id : Option String
  references : List String
  deriving Repr, DecidableEq

/-- The record literal `build_vendor_data` assembles from one fetched
detail dict before calling `save_cve` (a `None` CWE becomes the empty
multi-valued string; reference URLs are capped at five and comma-joined;
`products` is empty on this path). -/
def recordOfDetail (cve_id vendor_id : String) (d : FetchedDetail) : CveRecord :=
  { cve_id := cve_id
    vendor_id := some vendor_id
    published_date := d.published_date
    last_modified_date := d.last_modified
    description_en := d.description
    source_flags := some "cvedetails"
    cvss_v31_base_score := d.cvss_v31_base_score
    cvss_v31_severity := d.cvss_v31_severity
    cvss_v31_vector := d.cvss_vector
    cvss_v4_base_score := none
    cvss_v4_severity := none
    cvss_v4_vector := none
    cwe_ids := (d.cwe_id).getD ""
    reference_urls := String.intercalate "," (d.references.take 5)
    products := "" }

/-- One iteration of the save loop of `build_vendor_data`: an entry
carrying an error marker (`none` here) is skipped; otherwise the record is
saved and, when the discovery map lists the CVE, one additive product
mapping is inserted per associated product. -/
def processOne (vendor_id vendor_name : String) (mapping : List (String × List String))
    (db : Db) (cd : String × Option FetchedDetail) : Db :=
  match cd.2 with
  | none => db
  | some d =>
    let db1 := saveCve db (recordOfDetail cd.1 vendor_id d) (some vendor_id)
    match mapping.lookup cd.1 with
    | none => db1
    | some prods =>
      prods.foldl (fun a p => addProductMapping a cd.1 p vendor_name) db1

/-- The save loop of `build_vendor_data`: walk the fetched-details map in
order, performing `processOne` per entry. -/
def processDetails (db : Db) (vendor_id vendor_name : String)
    (mapping : List (String × List String))
    (details : List (String × Option FetchedDetail)) : Db :=
  details.foldl (processOne vendor_id vendor_name mapping) db

/-- `build_vendor_data` with `update_only=True`: read the vendor's stored
CVE-ID set, scrape the discovery map, drop every discovered ID already
stored, fetch details for the rest only, and run the save loop.  Returns
the final store and the list of IDs whose details were fetched.
`fetchDetails` stands for `CVEDetailsFetcher.fetch_cve_details`, which
returns one entry per requested ID. -/
def buildVendorDataUpdate (db : Db) (vendor_id vendor_name : String)
    (mapping : List (String × List String))
    (fetchDetails : List String → List (String × Option FetchedDetail)) :
    Db × List String :=
  let existing := getExistingCveIds db (some vendor_id)
  let discovered := mapping.map Prod.fst
  let fetchList := discovered.filter (fun c => c ∉ existing)
  (processDetails db vendor_id vendor_name mapping (fetchDetails fetchList), fetchList)

/-- All rows belonging to one CVE across the four tables: the observation
used to state that a record is "left completely unchanged". -/
def rowsFor (c : String) (db : Db) :
    List CveRow × List WeaknessRow × List ReferenceRow × List ProductRow :=
  (db.cves.filter (fun x => x.cve_id = c),
   db.weaknesses.filter (fun x => x.cve_id = c),
   db.cve_references.filter (fun x => x.cve_id = c),
   db.products.filter (fun x => x.cve_id = c))

/-- A record whose comma-delimited URL string repeats one URL: the input
refuting per-unique-URL deduplication of `cve_references`. -/
def dupUrlRecord : CveRecord :=
  { cve_id := "CVE-2024-0001"
    vendor_id := none
    published_date := none
    last_modified_date := none
    description_en := none
    source_flags := none
    cvss_v31_base_score := none
    cvss_v31_severity := none
    cvss_v31_vector := none
    cvss_v4_base_score := none
    cvss_v4_severity := none
    cvss_v4_vector := none
    cwe_ids := ""
    reference_urls := "u,u"
    products := "" }

/-- An NVD payload whose first vulnerability carries an English description
`"A"` and both dates (used to instantiate the reconciliation theorem). -/
def nvdSampleA : NvdPayload :=
  ⟨some [⟨some ⟨some "2024-01-01", some "2024-02-01", [⟨some "en", some "A"⟩]⟩⟩]⟩

/-- A v5 payload carrying an English description `"B"` and both dates. -/
def v5SampleB : V5Payload :=
  ⟨some ⟨some "2023-01-01", some "2023-02-01"⟩, some ⟨[⟨some "en", some "B"⟩]⟩⟩

/-- A store holding one CVE (`CVE-A`) for vendor `v`, used to instantiate
the incremental-update theorem. -/
def storedDbA : Db :=
  { cves := [{ cve_id := "CVE-A"
               vendor_id := some "v"
               published_date := none
               last_modified_date := none
               description_en := none
               source_flags := none
               cvss_v31_base_score := none
               cvss_v31_severity := none
               cvss_v31_vector := none
               cvss_v4_base_score := none
               cvss_v4_severity := none
               cvss_v4_vector := none }]
    weaknesses := []
    cve_references := []
    products := [] }

/-! ## Helper lemmas -/

theorem insertNew_mem {α : Type} [DecidableEq α] {l : List α} {x y : α} :
    x ∈ insertNew l y ↔ x ∈ l ∨ x = y := by
  unfold insertNew
  split_ifs with h
  · constructor
    · exact Or.inl
    · rintro (hx | rfl)
      · exact hx
      · exact h
  · simp

theorem insertNew_nodup {α : Type} [DecidableEq α] {l : List α} (h : l.Nodup) (y : α) :
    (insertNew l y).Nodup := by
  unfold insertNew
  split_ifs with hm
  · exact h
  · rw [List.nodup_append]
    refine ⟨h, List.nodup_singleton y, ?_⟩
    intro a ha hay
    simp only [List.mem_singleton] at hay
    subst hay
    exact hm ha

theorem foldl_insertNew_mem {α β : Type} [DecidableEq α] (mk : β → α) :
    ∀ (ts : List β) (acc : List α) (x : α),
      (x ∈ ts.foldl (fun a b => insertNew a (mk b)) acc ↔ x ∈ acc ∨ ∃ b ∈ ts, x = mk b) := by
  intro ts
  induction ts with
  | nil => simp
  | cons c ts ih =>
    intro acc x
    rw [List.foldl_cons, ih, insertNew_mem]
    constructor
    · rintro ((hx | rfl) | ⟨b, hb, rfl⟩)
      · exact Or.inl hx
      · exact Or.inr ⟨c, List.mem_cons_self c ts, rfl⟩
      · exact Or.inr ⟨b, List.mem_cons_of_mem c hb, rfl⟩
    · rintro (hx | ⟨b, hb, rfl⟩)
      · exact Or.inl (Or.inl hx)
      · rcases List.mem_cons.mp hb with rfl | hb
        · exact Or.inl (Or.inr rfl)
        · exact Or.inr ⟨b, hb, rfl⟩

theorem foldl_insertNew_nodup {α β : Type} [DecidableEq α] (mk : β → α) :
    ∀ (ts : List β) (acc : List α), acc.Nodup →
      (ts.foldl (fun a b => insertNew a (mk b)) acc).Nodup := by
  intro ts
  induction ts with
  | nil => exact fun acc h => h
  | cons c ts ih =>
    intro acc h
    exact ih _ (insertNew_nodup h (mk c))

theorem foldl_insertNew_append {α β : Type} [DecidableEq α] (mk : β → α) :
    ∀ (ts : List β) (acc1 acc2 : List α), (∀ b ∈ ts, mk b ∉ acc1) →
      ts.foldl (fun a b => insertNew a (mk b)) (acc1 ++ acc2) =
        acc1 ++ ts.foldl (fun a b => insertNew a (mk b)) acc2 := by
  intro ts
  induction ts with
  | nil => simp
  | cons c ts ih =>
    intro acc1 acc2 hfresh
    have hc : mk c ∉ acc1 := hfresh c (List.mem_cons_self c ts)
    have hstep : insertNew (acc1 ++ acc2) (mk c) = acc1 ++ insertNew acc2 (mk c) := by
      unfold insertNew
      by_cases h2 : mk c ∈ acc2
      · rw [if_pos (List.mem_append.mpr (Or.inr h2)), if_pos h2]
      · have : mk c ∉ acc1 ++ acc2 := by
          intro hmem
          rcases List.mem_append.mp hmem with h | h
          · exact hc h
          · exact h2 h
        rw [if_neg this, if_neg h2, List.append_assoc]
    simp only [List.foldl_cons]
    rw [hstep, ih _ _ (fun b hb => hfresh b (List.mem_cons_of_mem c hb))]

theorem filter_of_imp {α : Type} (p q : α → Bool) (h : ∀ x, p x = true → q x = true)
    (l : List α) : (l.filter q).filter p = l.filter p := by
  rw [List.filter_filter]
  apply List.filter_congr
  intro x _
  by_cases hp : p x = true
  · simp [hp, h x hp]
  · simp [Bool.eq_false_iff.mpr hp]

theorem filter_self_filter {α : Type} (p : α → Bool) (l : List α) :
    (l.filter p).filter p = l.filter p :=
  filter_of_imp p p (fun _ h => h) l

theorem filter_eq_nil_of_forall {α : Type} {p : α → Bool} :
    ∀ {l : List α}, (∀ x ∈ l, p x = false) → l.filter p = [] := by
  intro l
  induction l with
  | nil => intro _; rfl
  | cons a l ih =>
    intro h
    rw [List.filter_cons, h a (List.mem_cons_self a l)]
    exact ih (fun x hx => h x (List.mem_cons_of_mem a hx))

theorem filter_eq_self_of_forall {α : Type} {p : α → Bool} :
    ∀ {l : List α}, (∀ x ∈ l, p x = true) → l.filter p = l := by
  intro l
  induction l with
  | nil => intro _; rfl
  | cons a l ih =>
    intro h
    rw [List.filter_cons, h a (List.mem_cons_self a l), if_pos rfl,
      ih (fun x hx => h x (List.mem_cons_of_mem a hx))]

theorem saveCve_cves_eq (db : Db) (r : CveRecord) (v : Option String) :
    (saveCve db r v).cves =
      db.cves.filter (fun c => c.cve_id ≠ r.cve_id) ++ [savedCveRow r v] := rfl

theorem saveCve_weaknesses_eq (db : Db) (r : CveRecord) (v : Option String) :
    (saveCve db r v).weaknesses =
      db.weaknesses.filter (fun w => w.cve_id ≠ r.cve_id) ++
        (if r.cwe_ids = "" then [] else savedWeaknessRows r.cve_id r.cwe_ids) := by
  by_cases h : r.cwe_ids = ""
  · simp [saveCve, h]
  · have hfresh : ∀ c ∈ (pySplit r.cwe_ids ',').filter (fun c => pyStrip c ≠ ""),
        (⟨r.cve_id, pyStrip c⟩ : WeaknessRow) ∉
          db.weaknesses.filter (fun w => w.cve_id ≠ r.cve_id) := by
      intro c _ hmem
      have := (List.mem_filter.mp hmem).2
      simp at this
    have haux := foldl_insertNew_append (fun c : String => (⟨r.cve_id, pyStrip c⟩ : WeaknessRow))
      ((pySplit r.cwe_ids ',').filter (fun c => pyStrip c ≠ ""))
      (db.weaknesses.filter (fun w => w.cve_id ≠ r.cve_id)) [] hfresh
    simp only [List.append_nil] at haux
    simp only [ne_eq, decide_not] at haux
    simp [saveCve, h, insertOrIgnoreWeakness, savedWeaknessRows, haux]

theorem saveCve_references_eq (db : Db) (r : CveRecord) (v : Option String) :
    (saveCve db r v).cve_references =
      db.cve_references.filter (fun x => x.cve_id ≠ r.cve_id) ++
        (if r.reference_urls = "" then [] else savedReferenceRows r.cve_id r.reference_urls) := by
  by_cases h : r.reference_urls = "" <;> simp [saveCve, h]

theorem saveCve_products_eq (db : Db) (r : CveRecord) (v : Option String) :
    (saveCve db r v).products =
      db.products.filter (fun x => x.cve_id ≠ r.cve_id) ++
        (if r.products = "" then [] else savedProductRows r.cve_id r.products) := by
  by_cases h : r.products = "" <;> simp [saveCve, h]

theorem mem_savedWeaknessRows {id cwes : String} {w : WeaknessRow} :
    w ∈ savedWeaknessRows id cwes ↔
      ∃ c ∈ pySplit cwes ',', pyStrip c ≠ "" ∧ w = ⟨id, pyStrip c⟩ := by
  unfold savedWeaknessRows
  rw [foldl_insertNew_mem]
  simp only [List.not_mem_nil, false_or, List.mem_filter, decide_eq_true_eq]
  constructor
  · rintro ⟨c, ⟨hc, hne⟩, rfl⟩
    exact ⟨c, hc, hne, rfl⟩
  · rintro ⟨c, hc, hne, rfl⟩
    exact ⟨c, ⟨hc, hne⟩, rfl⟩

theorem savedWeaknessRows_nodup (id cwes : String) : (savedWeaknessRows id cwes).Nodup :=
  foldl_insertNew_nodup _ _ [] List.nodup_nil

theorem savedWeaknessRows_cve_id {id cwes : String} {w : WeaknessRow}
    (h : w ∈ savedWeaknessRows id cwes) : w.cve_id = id := by
  obtain ⟨c, _, _, rfl⟩ := mem_savedWeaknessRows.mp h
  rfl

theorem mem_savedProductRows {id s : String} {p : ProductRow} :
    p ∈ savedProductRows id s ↔
      ∃ tok ∈ pySplit s ';', pyStrip tok ≠ "" ∧ p = parseCpeToken id tok := by
  unfold savedProductRows
  rw [foldl_insertNew_mem]
  simp only [List.not_mem_nil, false_or, List.mem_filter, decide_eq_true_eq]
  constructor
  · rintro ⟨tok, ⟨ht, hne⟩, rfl⟩
    exact ⟨tok, ht, hne, rfl⟩
  · rintro ⟨tok, ht, hne, rfl⟩
    exact ⟨tok, ⟨ht, hne⟩, rfl⟩

theorem savedProductRows_nodup (id s : String) : (savedProductRows id s).Nodup :=
  foldl_insertNew_nodup _ _ [] List.nodup_nil

theorem savedProductRows_cve_id {id s : String} {p : ProductRow}
    (h : p ∈ savedProductRows id s) : p.cve_id = id := by
  obtain ⟨tok, _, _, rfl⟩ := mem_savedProductRows.mp h
  rfl

theorem savedReferenceRows_cve_id {id urls : String} {x : ReferenceRow}
    (h : x ∈ savedReferenceRows id urls) : x.cve_id = id := by
  obtain ⟨u, _, rfl⟩ := List.mem_map.mp h
  rfl

theorem dbExt {a b : Db} (h1 : a.cves = b.cves) (h2 : a.weaknesses = b.weaknesses)
    (h3 : a.cve_references = b.cve_references) (h4 : a.products = b.products) : a = b := by
  cases a
  cases b
  simp only at h1 h2 h3 h4
  simp [h1, h2, h3, h4]

theorem saveCve_cves_filter_ne (db : Db) (r : CveRecord) (v : Option String) :
    (saveCve db r v).cves.filter (fun x => x.cve_id ≠ r.cve_id) =
      db.cves.filter (fun x => x.cve_id ≠ r.cve_id) := by
  have h2 : ([savedCveRow r v]).filter (fun x => decide (x.cve_id ≠ r.cve_id)) = [] :=
    filter_eq_nil_of_forall (fun x hx => by
      simp only [List.mem_singleton] at hx
      subst hx
      simp [savedCveRow])
  rw [saveCve_cves_eq, List.filter_append, filter_self_filter, h2, List.append_nil]

theorem saveCve_weaknesses_filter_ne (db : Db) (r : CveRecord) (v : Option String) :
    (saveCve db r v).weaknesses.filter (fun x => x.cve_id ≠ r.cve_id) =
      db.weaknesses.filter (fun x => x.cve_id ≠ r.cve_id) := by
  rw [saveCve_weaknesses_eq, List.filter_append, filter_self_filter]
  have h2 : (if r.cwe_ids = "" then [] else savedWeaknessRows r.cve_id r.cwe_ids).filter
      (fun x => decide (x.cve_id ≠ r.cve_id)) = [] := by
    split_ifs
    · rfl
    · exact filter_eq_nil_of_forall (fun x hx => by
        simp [savedWeaknessRows_cve_id hx])
  rw [h2, List.append_nil]

theorem saveCve_references_filter_ne (db : Db) (r : CveRecord) (v : Option String) :
    (saveCve db r v).cve_references.filter (fun x => x.cve_id ≠ r.cve_id) =
      db.cve_references.filter (fun x => x.cve_id ≠ r.cve_id) := by
  rw [saveCve_references_eq, List.filter_append, filter_self_filter]
  have h2 : (if r.reference_urls = "" then []
      else savedReferenceRows r.cve_id r.reference_urls).filter
      (fun x => decide (x.cve_id ≠ r.cve_id)) = [] := by
    split_ifs
    · rfl
    · exact filter_eq_nil_of_forall (fun x hx => by
        simp [savedReferenceRows_cve_id hx])
  rw [h2, List.append_nil]

theorem saveCve_products_filter_ne (db : Db) (r : CveRecord) (v : Option String) :
    (saveCve db r v).products.filter (fun x => x.cve_id ≠ r.cve_id) =
      db.products.filter (fun x => x.cve_id ≠ r.cve_id) := by
  rw [saveCve_products_eq, List.filter_append, filter_self_filter]
  have h2 : (if r.products = "" then [] else savedProductRows r.cve_id r.products).filter
      (fun x => decide (x.cve_id ≠ r.cve_id)) = [] := by
    split_ifs
    · rfl
    · exact filter_eq_nil_of_forall (fun x hx => by
        simp [savedProductRows_cve_id hx])
  rw [h2, List.append_nil]

theorem filter_cveid_nil {α : Type} {c id : String} (hc : c ≠ id) (f : α → String)
    (l : List α) (h : ∀ x ∈ l, f x = id) : l.filter (fun x => f x = c) = [] :=
  filter_eq_nil_of_forall (fun x hx => by simp [h x hx, Ne.symm hc])

theorem filter_cveid_keep {α : Type} {c id : String} (hc : c ≠ id) (f : α → String)
    (l : List α) : (l.filter (fun x => f x ≠ id)).filter (fun x => f x = c) =
      l.filter (fun x => f x = c) :=
  filter_of_imp _ _
    (fun x hx => by
      simp only [decide_eq_true_eq] at hx ⊢
      rw [hx]
      exact hc) l

theorem saveCve_rowsFor_ne (db : Db) (r : CveRecord) (v : Option String) {c : String}
    (hc : c ≠ r.cve_id) : rowsFor c (saveCve db r v) = rowsFor c db := by
  have h1 : (saveCve db r v).cves.filter (fun x => x.cve_id = c) =
      db.cves.filter (fun x => x.cve_id = c) := by
    have ha := filter_cveid_keep hc (fun x : CveRow => x.cve_id) db.cves
    have hb : ([savedCveRow r v] : List CveRow).filter (fun x => x.cve_id = c) = [] :=
      filter_cveid_nil hc (fun x : CveRow => x.cve_id) _
        (fun x hx => by
          simp only [List.mem_singleton] at hx
          subst hx
          rfl)
    rw [saveCve_cves_eq, List.filter_append, ha, hb, List.append_nil]
  have h2 : (saveCve db r v).weaknesses.filter (fun x => x.cve_id = c) =
      db.weaknesses.filter (fun x => x.cve_id = c) := by
    have ha := filter_cveid_keep hc (fun x : WeaknessRow => x.cve_id) db.weaknesses
    have hb : ((if r.cwe_ids = "" then [] else savedWeaknessRows r.cve_id r.cwe_ids)).filter
        (fun x => x.cve_id = c) = [] :=
      filter_cveid_nil hc (fun x : WeaknessRow => x.cve_id) _
        (fun x hx => by
          split_ifs at hx
          · simp at hx
          · exact savedWeaknessRows_cve_id hx)
    rw [saveCve_weaknesses_eq, List.filter_append, ha, hb, List.append_nil]
  have h3 : (saveCve db r v).cve_references.filter (fun x => x.cve_id = c) =
      db.cve_references.filter (fun x => x.cve_id = c) := by
    have ha := filter_cveid_keep hc (fun x : ReferenceRow => x.cve_id) db.cve_references
    have hb : ((if r.reference_urls = "" then []
        else savedReferenceRows r.cve_id r.reference_urls)).filter
        (fun x => x.cve_id = c) = [] :=
      filter_cveid_nil hc (fun x : ReferenceRow => x.cve_id) _
        (fun x hx => by
          split_ifs at hx
          · simp at hx
          · exact savedReferenceRows_cve_id hx)
    rw [saveCve_references_eq, List.filter_append, ha, hb, List.append_nil]
  have h4 : (saveCve db r v).products.filter (fun x => x.cve_id = c) =
      db.products.filter (fun x => x.cve_id = c) := by
    have ha := filter_cveid_keep hc (fun x : ProductRow => x.cve_id) db.products
    have hb : ((if r.products = "" then [] else savedProductRows r.cve_id r.products)).filter
        (fun x => x.cve_id = c) = [] :=
      filter_cveid_nil hc (fun x : ProductRow => x.cve_id) _
        (fun x hx => by
          split_ifs at hx
          · simp at hx
          · exact savedProductRows_cve_id hx)
    rw [saveCve_products_eq, List.filter_append, ha, hb, List.append_nil]
  simp only [rowsFor, h1, h2, h3, h4]

theorem addProductMapping_rowsFor_ne (db : Db) (k p vn : String) {c : String}
    (hc : c ≠ k) : rowsFor c (addProductMapping db k p vn) = rowsFor c db := by
  have h4 : (db.products ++ [(⟨k, "", vn, p, "*"⟩ : ProductRow)]).filter
      (fun x => x.cve_id = c) = db.products.filter (fun x => x.cve_id = c) := by
    have hb : ([(⟨k, "", vn, p, "*"⟩ : ProductRow)]).filter (fun x => x.cve_id = c) = [] :=
      filter_cveid_nil hc (fun x : ProductRow => x.cve_id) _
        (fun x hx => by
          simp only [List.mem_singleton] at hx
          subst hx
          rfl)
    rw [List.filter_append, hb, List.append_nil]
  simp only [rowsFor, addProductMapping, h4]

theorem foldl_addProductMapping_rowsFor_ne (k vn : String) {c : String} (hc : c ≠ k) :
    ∀ (prods : List String) (db : Db),
      rowsFor c (prods.foldl (fun a p => addProductMapping a k p vn) db) = rowsFor c db := by
  intro prods
  induction prods with
  | nil => intro db; rfl
  | cons p ps ih =>
    intro db
    rw [List.foldl_cons, ih, addProductMapping_rowsFor_ne db k p vn hc]

theorem processOne_rowsFor_ne (vid vn : String) (mapping : List (String × List String))
    (db : Db) (cd : String × Option FetchedDetail) {c : String} (hc : c ≠ cd.1) :
    rowsFor c (processOne vid vn mapping db cd) = rowsFor c db := by
  obtain ⟨k, od⟩ := cd
  simp only at hc
  cases od with
  | none => rfl
  | some d =>
    unfold processOne
    simp only
    cases hm : mapping.lookup k with
    | none => exact saveCve_rowsFor_ne db _ _ hc
    | some prods =>
      rw [foldl_addProductMapping_rowsFor_ne k vn hc]
      exact saveCve_rowsFor_ne db _ _ hc

theorem processDetails_rowsFor_ne (vid vn : String) (mapping : List (String × List String))
    {c : String} :
    ∀ (details : List (String × Option FetchedDetail)) (db : Db),
      c ∉ details.map Prod.fst →
      rowsFor c (processDetails db vid vn mapping details) = rowsFor c db := by
  intro details
  induction details with
  | nil => intro db _; rfl
  | cons cd ds ih =>
    intro db hcm
    simp only [List.map_cons, List.mem_cons, not_or] at hcm
    unfold processDetails at ih ⊢
    rw [List.foldl_cons, ih _ hcm.2, processOne_rowsFor_ne vid vn mapping db cd hcm.1]

theorem saveCve_idem_lemma (db : Db) (r : CveRecord) (v : Option String) :
    saveCve (saveCve db r v) r v = saveCve db r v := by
  apply dbExt
  · rw [saveCve_cves_eq (saveCve db r v) r v, saveCve_cves_filter_ne, saveCve_cves_eq]
  · rw [saveCve_weaknesses_eq (saveCve db r v) r v, saveCve_weaknesses_filter_ne,
      saveCve_weaknesses_eq]
  · rw [saveCve_references_eq (saveCve db r v) r v, saveCve_references_filter_ne,
      saveCve_references_eq]
  · rw [saveCve_products_eq (saveCve db r v) r v, saveCve_products_filter_ne,
      saveCve_products_eq]

theorem updateKevStatus_snd_eq (rows : List KevRow) (K : List String) :
    (updateKevStatus rows K).2 =
      rows.map (fun r => { r with is_kev := r.is_kev || decide (r.cve_id ∈ K) }) := by
  simp only [updateKevStatus]
  congr 1
  funext r
  cases r with
  | mk id k =>
    by_cases hm : id ∈ K <;> cases k <;> simp [hm]

theorem filter_ne_then_eq_nil {α : Type} (f : α → String) (id : String) (l : List α) :
    ((l.filter (fun x => f x ≠ id)).filter (fun x => f x = id)) = [] :=
  filter_eq_nil_of_forall (fun x hx => by
    have h2 := (List.mem_filter.mp hx).2
    simp only [decide_eq_true_eq] at h2
    simpa using h2)

theorem getD_of_lt {α : Type} (l : List α) (n : Nat) (d1 d2 : α) (h : n < l.length) :
    l.getD n d1 = l.getD n d2 := by
  induction l generalizing n with
  | nil => exact absurd h (Nat.not_lt_zero n)
  | cons a l ih =>
    cases n with
    | zero => rfl
    | succ n => exact ih n (by simpa using h)

/-! ## Claim theorems -/

/-- C4: the severity the CVEDetails extractor derives from a numeric base
score follows the fixed bucket table — `score ≥ 9.0` gives CRITICAL,
`9.0 > score ≥ 7.0` gives HIGH, `7.0 > score ≥ 4.0` gives MEDIUM,
`4.0 > score > 0` gives LOW and `score = 0` gives NONE — and in particular
9.0 → CRITICAL, 8.99 → HIGH, 4.0 → MEDIUM, 0.01 → LOW, 0 → NONE. -/
theorem deriveSeverity_matches_bucket_table :
    (∀ s : ℚ,
      (9 ≤ s → deriveSeverity s = "CRITICAL") ∧
      (7 ≤ s → s < 9 → deriveSeverity s = "HIGH") ∧
      (4 ≤ s → s < 7 → deriveSeverity s = "MEDIUM") ∧
      (0 < s → s < 4 → deriveSeverity s = "LOW") ∧
      (s = 0 → deriveSeverity s = "NONE")) ∧
    deriveSeverity 9 = "CRITICAL" ∧
    deriveSeverity (899/100) = "HIGH" ∧
    deriveSeverity 4 = "MEDIUM" ∧
    deriveSeverity (1/100) = "LOW" ∧
    deriveSeverity 0 = "NONE" := by
  constructor
  · intro s
    refine ⟨?_, ?_, ?_, ?_, ?_⟩ <;>
      · intros
        unfold deriveSeverity
        split_ifs <;> first | rfl | linarith
  · refine ⟨?_, ?_, ?_, ?_, ?_⟩ <;>
      · unfold deriveSeverity
        norm_num

/-- Witness for C4: the bucket theorem applied at the concrete score 9.5. -/
theorem deriveSeverity_matches_bucket_table_witness :
    deriveSeverity (19/2) = "CRITICAL" :=
  (deriveSeverity_matches_bucket_table.1 (19/2)).1 (by norm_num)

/-- The code's group directory equals the spec's bucket prefix followed by
`"xxx"`. -/
theorem v5Group_eq_specBucket (s : String) : v5Group s = specBucket s ++ "xxx" := by
  unfold v5Group specBucket
  rcases lt_trichotomy s.length 4 with h | h | h
  · rw [if_pos h, if_neg (by omega), if_neg (by omega)]
    rfl
  · rw [if_neg (by omega), if_pos h, if_neg (by omega), if_pos h]
  · rw [if_neg (by omega), if_neg (by omega), if_pos (by omega)]

/-- C8: on a cache miss, for a CVE ID with exactly three dash-separated
parts, `fetch_v5_cve` requests exactly
`<base>/<year>/<bucket>xxx/<cve-id>.json` with the bucket prefix of the
spec (first N−3 digits of the suffix for 5+ digits, first digit for
exactly 4, fallback `"0"` below 4). -/
theorem fetchV5Cve_requests_bucket_path {α : Type} (cache : List (String × α))
    (responses : String → Option α) (cve_id p0 year suffix : String)
    (hmiss : cache.lookup cve_id = none)
    (hsplit : pySplit cve_id '-' = [p0, year, suffix]) :
    (fetchV5Cve cache responses cve_id).requestedUrl =
      some (v5BaseUrl ++ "/" ++ year ++ "/" ++ (specBucket suffix ++ "xxx") ++ "/" ++
        cve_id ++ ".json") := by
  have hurl : v5Url year suffix cve_id =
      v5BaseUrl ++ "/" ++ year ++ "/" ++ (specBucket suffix ++ "xxx") ++ "/" ++
        cve_id ++ ".json" := by
    unfold v5Url
    rw [v5Group_eq_specBucket]
  unfold fetchV5Cve
  rw [hmiss, hsplit]
  dsimp only
  cases hresp : responses (v5Url year suffix cve_id) <;> exact congrArg some hurl

/-- Witness for C8: the path requested for `CVE-2024-12345` on an empty
cache. -/
theorem fetchV5Cve_requests_bucket_path_witness :
    (fetchV5Cve ([] : List (String × Nat)) (fun _ => none) "CVE-2024-12345").requestedUrl =
      some (v5BaseUrl ++ "/" ++ "2024" ++ "/" ++ (specBucket "12345" ++ "xxx") ++ "/" ++
        "CVE-2024-12345" ++ ".json") :=
  fetchV5Cve_requests_bucket_path [] (fun _ => none) "CVE-2024-12345" "CVE" "2024" "12345"
    rfl (by decide)

/-- C9: on a cache miss, an input that does not split into exactly three
dash-separated parts makes `fetch_v5_cve` return the error result with no
network request and no cache write. -/
theorem fetchV5Cve_rejects_malformed {α : Type} (cache : List (String × α))
    (responses : String → Option α) (cve_id : String)
    (hmiss : cache.lookup cve_id = none)
    (hlen : (pySplit cve_id '-').length ≠ 3) :
    fetchV5Cve cache responses cve_id = ⟨none, none, []⟩ := by
  unfold fetchV5Cve
  rw [hmiss]
  rcases hps : pySplit cve_id '-' with _ | ⟨a, _ | ⟨b, _ | ⟨c, _ | ⟨d, t⟩⟩⟩⟩ <;>
    first
      | rfl
      | (rw [hps] at hlen; simp at hlen)

/-- Witness for C9: the malformed input `"notacve"` on an empty cache. -/
theorem fetchV5Cve_rejects_malformed_witness :
    fetchV5Cve ([] : List (String × Nat)) (fun _ => none) "notacve" = ⟨none, none, []⟩ :=
  fetchV5Cve_rejects_malformed [] (fun _ => none) "notacve" rfl (by decide)

/-- C10: a truthy NVD payload whose `vulnerabilities` key holds the empty
list makes `normalize` fail (the unguarded `vulnerabilities[0]` raises
`IndexError`), for every cve_id and every v5 payload. -/
theorem normalize_empty_vulnerabilities_fails (cve_id : String) (v5 : Option V5Payload) :
    normalize cve_id (some ⟨some []⟩) v5 = none := rfl

/-- C1: `updateKevStatus` keeps every cve_id, sets `is_kev` to true exactly
on the rows whose id is in the supplied set (rows already true stay true,
rows outside the set keep their flag), returns the number of rows it
actually flipped, and a second call with the same set flips nothing:
it returns zero and leaves the table unchanged. -/
theorem updateKevStatus_correct (rows : List KevRow) (K : List String) :
    (updateKevStatus rows K).2 =
      rows.map (fun r => { r with is_kev := r.is_kev || decide (r.cve_id ∈ K) }) ∧
    (updateKevStatus rows K).1 =
      rows.countP (fun r => decide (r.cve_id ∈ K) && !r.is_kev) ∧
    (updateKevStatus (updateKevStatus rows K).2 K).1 = 0 ∧
    (updateKevStatus (updateKevStatus rows K).2 K).2 = (updateKevStatus rows K).2 := by
  refine ⟨updateKevStatus_snd_eq rows K, rfl, ?_, ?_⟩
  · rw [updateKevStatus_snd_eq rows K]
    show List.countP _ _ = 0
    rw [List.countP_map]
    apply List.countP_eq_zero.mpr
    intro r _
    by_cases hm : r.cve_id ∈ K <;> simp [Function.comp, hm]
  · rw [updateKevStatus_snd_eq, updateKevStatus_snd_eq, List.map_map]
    apply List.map_congr_left
    intro r _
    by_cases hm : r.cve_id ∈ K <;> simp [Function.comp, hm]

/-- Counterexample for C2: the record whose URL string is `"u,u"` has one
unique URL, yet after two identical `save_cve` calls its CVE carries two
reference rows for that URL — references are not deduplicated per unique
URL. -/
theorem saveCve_unique_url_refuted :
    dupUrlRecord.reference_urls = "u,u" ∧
    ((saveCve (saveCve emptyDb dupUrlRecord none) dupUrlRecord none).cve_references.countP
      (fun row => row.url = "u")) = 2 := by
  constructor
  · rfl
  · decide

/-- C2 (amended): a second identical `save_cve` leaves the store exactly as
after the first; the saved CVE then has exactly one `cves` row, a
duplicate-free set of `weaknesses` rows — one per distinct stripped
non-blank CWE token —, one `products` row per distinct parsed
(cve_id, raw_cpe, vendor, product, version) tuple, and one `cve_references`
row per stripped non-blank URL token occurrence (duplicate URL tokens give
duplicate rows within the one call, though repetition of the call adds
nothing). -/
theorem saveCve_idempotent_and_deduped (db : Db) (r : CveRecord) (v : Option String) :
    saveCve (saveCve db r v) r v = saveCve db r v ∧
    (saveCve db r v).cves.countP (fun c => c.cve_id = r.cve_id) = 1 ∧
    ((saveCve db r v).weaknesses.filter (fun w => w.cve_id = r.cve_id)).Nodup ∧
    (∀ cw : String, (⟨r.cve_id, cw⟩ : WeaknessRow) ∈ (saveCve db r v).weaknesses ↔
      cw ≠ "" ∧ ∃ tok ∈ pySplit r.cwe_ids ',', pyStrip tok = cw) ∧
    ((saveCve db r v).cve_references.filter (fun x => x.cve_id = r.cve_id) =
      ((pySplit r.reference_urls ',').filter (fun u => pyStrip u ≠ "")).map
        (fun u => (⟨r.cve_id, pyStrip u⟩ : ReferenceRow))) ∧
    ((saveCve db r v).products.filter (fun p => p.cve_id = r.cve_id)).Nodup ∧
    (∀ p : ProductRow, (p ∈ (saveCve db r v).products ∧ p.cve_id = r.cve_id) ↔
      ∃ tok ∈ pySplit r.products ';', pyStrip tok ≠ "" ∧ p = parseCpeToken r.cve_id tok) := by
  refine ⟨saveCve_idem_lemma db r v, ?_, ?_, ?_, ?_, ?_, ?_⟩
  · -- exactly one cves row
    rw [saveCve_cves_eq, List.countP_append]
    have h1 : (db.cves.filter (fun c => c.cve_id ≠ r.cve_id)).countP
        (fun c => c.cve_id = r.cve_id) = 0 := by
      apply List.countP_eq_zero.mpr
      intro a ha
      have h2 := (List.mem_filter.mp ha).2
      simp only [decide_eq_true_eq] at h2
      simp [h2]
    rw [h1]
    simp [savedCveRow]
  · -- weaknesses per CVE are duplicate free
    rw [saveCve_weaknesses_eq, List.filter_append]
    have hb := filter_ne_then_eq_nil (fun x : WeaknessRow => x.cve_id) r.cve_id db.weaknesses
    rw [hb, List.nil_append]
    split_ifs with h
    · simp
    · have hself : (savedWeaknessRows r.cve_id r.cwe_ids).filter
          (fun x => x.cve_id = r.cve_id) = savedWeaknessRows r.cve_id r.cwe_ids :=
        filter_eq_self_of_forall (fun x hx => by simp [savedWeaknessRows_cve_id hx])
      rw [hself]
      exact savedWeaknessRows_nodup _ _
  · -- weaknesses membership: one row per distinct stripped CWE token
    intro cw
    rw [saveCve_weaknesses_eq, List.mem_append]
    have hw0 : (⟨r.cve_id, cw⟩ : WeaknessRow) ∉
        db.weaknesses.filter (fun w => w.cve_id ≠ r.cve_id) := by
      intro hmem
      have h2 := (List.mem_filter.mp hmem).2
      simp at h2
    by_cases h : r.cwe_ids = ""
    · rw [if_pos h, h]
      constructor
      · rintro (hmem | hmem)
        · exact absurd hmem hw0
        · simp at hmem
      · rintro ⟨hne, tok, htok, hstrip⟩
        have hsp : pySplit "" ',' = [""] := rfl
        rw [hsp] at htok
        simp only [List.mem_singleton] at htok
        subst htok
        exfalso
        apply hne
        rw [← hstrip]
        rfl
    · rw [if_neg h]
      constructor
      · rintro (hmem | hmem)
        · exact absurd hmem hw0
        · obtain ⟨c, hc, hcne, heq⟩ := mem_savedWeaknessRows.mp hmem
          have hcw : cw = pyStrip c := congrArg WeaknessRow.cwe_id heq
          refine ⟨by rw [hcw]; exact hcne, c, hc, hcw.symm⟩
      · rintro ⟨hne, tok, htok, hstrip⟩
        right
        exact mem_savedWeaknessRows.mpr
          ⟨tok, htok, by rw [hstrip]; exact hne, by rw [hstrip]⟩
  · -- references: one row per stripped non-blank URL token occurrence
    rw [saveCve_references_eq, List.filter_append]
    have hb := filter_ne_then_eq_nil (fun x : ReferenceRow => x.cve_id) r.cve_id
      db.cve_references
    rw [hb, List.nil_append]
    by_cases h : r.reference_urls = ""
    · rw [if_pos h, h]
      rfl
    · rw [if_neg h]
      have hself : (savedReferenceRows r.cve_id r.reference_urls).filter
          (fun x => x.cve_id = r.cve_id) = savedReferenceRows r.cve_id r.reference_urls :=
        filter_eq_self_of_forall (fun x hx => by simp [savedReferenceRows_cve_id hx])
      rw [hself]
      rfl
  · -- products per CVE are duplicate free
    rw [saveCve_products_eq, List.filter_append]
    have hb := filter_ne_then_eq_nil (fun x : ProductRow => x.cve_id) r.cve_id db.products
    rw [hb, List.nil_append]
    split_ifs with h
    · simp
    · have hself : (savedProductRows r.cve_id r.products).filter
          (fun x => x.cve_id = r.cve_id) = savedProductRows r.cve_id r.products :=
        filter_eq_self_of_forall (fun x hx => by simp [savedProductRows_cve_id hx])
      rw [hself]
      exact savedProductRows_nodup _ _
  · -- products membership: one row per distinct parsed tuple
    intro p
    rw [saveCve_products_eq]
    constructor
    · rintro ⟨hmem, hpid⟩
      rcases List.mem_append.mp hmem with hmem | hmem
      · have h2 := (List.mem_filter.mp hmem).2
        simp only [decide_eq_true_eq] at h2
        exact absurd hpid h2
      · split_ifs at hmem with hemp
        · simp at hmem
        · exact mem_savedProductRows.mp hmem
    · rintro ⟨tok, htok, hne, rfl⟩
      refine ⟨List.mem_append.mpr (Or.inr ?_), rfl⟩
      by_cases hemp : r.products = ""
      · exfalso
        rw [hemp] at htok
        have hsp : pySplit "" ';' = [""] := rfl
        rw [hsp] at htok
        simp only [List.mem_singleton] at htok
        subst htok
        exact hne rfl
      · rw [if_neg hemp]
        exact mem_savedProductRows.mpr ⟨tok, htok, hne, rfl⟩

/-- Witness for C2 (amended): the double save of the concrete record with
URL string `"u,u"` equals the single save. -/
theorem saveCve_idempotent_and_deduped_witness :
    saveCve (saveCve emptyDb dupUrlRecord none) dupUrlRecord none =
      saveCve emptyDb dupUrlRecord none :=
  (saveCve_idempotent_and_deduped emptyDb dupUrlRecord none).1

/-- C6: every non-blank semicolon token is parsed by splitting on `":"`,
reading vendor/product/version at positions 3/4/5 with an `"unknown"`
fallback when the token has too few fields; within one call the rows are
deduplicated by the full tuple, each distinct tuple inserted exactly
once. -/
theorem saveCve_parses_and_dedups_products (id s : String) :
    (savedProductRows id s).Nodup ∧
    (∀ p : ProductRow, p ∈ savedProductRows id s ↔
      ∃ tok ∈ pySplit s ';', pyStrip tok ≠ "" ∧ p = parseCpeToken id tok) ∧
    (∀ tok : String,
      parseCpeToken id tok =
        { cve_id := id
          raw_cpe := tok
          vendor := if 3 < (pySplit tok ':').length then (pySplit tok ':').getD 3 ""
            else "unknown"
          product := if 4 < (pySplit tok ':').length then (pySplit tok ':').getD 4 ""
            else "unknown"
          version := if 5 < (pySplit tok ':').length then (pySplit tok ':').getD 5 ""
            else "unknown" }) := by
  refine ⟨savedProductRows_nodup id s, fun p => mem_savedProductRows, fun tok => ?_⟩
  unfold parseCpeToken
  simp only [ProductRow.mk.injEq]
  refine ⟨trivial, trivial, ?_, ?_, ?_⟩
  · by_cases h3 : 3 < (pySplit tok ':').length
    · rw [if_pos h3, if_pos h3, getD_of_lt _ _ _ _ h3]
    · rw [if_neg h3, if_neg h3]
  · by_cases h4 : 4 < (pySplit tok ':').length
    · rw [if_pos h4, if_pos h4, getD_of_lt _ _ _ _ h4]
    · rw [if_neg h4, if_neg h4]
  · by_cases h5 : 5 < (pySplit tok ':').length
    · rw [if_pos h5, if_pos h5, getD_of_lt _ _ _ _ h5]
    · rw [if_neg h5, if_neg h5]

/-- Witness for C6: the product rows of the token string `"a;a"` are
duplicate free. -/
theorem saveCve_parses_and_dedups_products_witness :
    (savedProductRows "CVE-1" "a;a").Nodup :=
  (saveCve_parses_and_dedups_products "CVE-1" "a;a").1

/-- C7: the two product-write paths are asymmetric.  `save_cve` replaces a
CVE's `products`, `weaknesses` and `cve_references` rows wholesale — what
remains for that cve_id depends only on the record, not on the prior store
— while `add_product_mapping` is a pure insert that appends one row and
leaves every existing row of every table unchanged. -/
theorem saveCve_replaces_addProductMapping_appends :
    (∀ (db1 db2 : Db) (r : CveRecord) (v : Option String),
      (saveCve db1 r v).products.filter (fun x => x.cve_id = r.cve_id) =
        (saveCve db2 r v).products.filter (fun x => x.cve_id = r.cve_id) ∧
      (saveCve db1 r v).weaknesses.filter (fun x => x.cve_id = r.cve_id) =
        (saveCve db2 r v).weaknesses.filter (fun x => x.cve_id = r.cve_id) ∧
      (saveCve db1 r v).cve_references.filter (fun x => x.cve_id = r.cve_id) =
        (saveCve db2 r v).cve_references.filter (fun x => x.cve_id = r.cve_id)) ∧
    (∀ (db : Db) (cve_id product_name vendor_name : String),
      (addProductMapping db cve_id product_name vendor_name).products =
        db.products ++ [⟨cve_id, "", vendor_name, product_name, "*"⟩] ∧
      (addProductMapping db cve_id product_name vendor_name).cves = db.cves ∧
      (addProductMapping db cve_id product_name vendor_name).weaknesses = db.weaknesses ∧
      (addProductMapping db cve_id product_name vendor_name).cve_references =
        db.cve_references) := by
  constructor
  · intro db1 db2 r v
    refine ⟨?_, ?_, ?_⟩
    · have hb1 := filter_ne_then_eq_nil (fun x : ProductRow => x.cve_id) r.cve_id db1.products
      have hb2 := filter_ne_then_eq_nil (fun x : ProductRow => x.cve_id) r.cve_id db2.products
      rw [saveCve_products_eq db1, saveCve_products_eq db2, List.filter_append,
        List.filter_append, hb1, hb2]
    · have hb1 := filter_ne_then_eq_nil (fun x : WeaknessRow => x.cve_id) r.cve_id
        db1.weaknesses
      have hb2 := filter_ne_then_eq_nil (fun x : WeaknessRow => x.cve_id) r.cve_id
        db2.weaknesses
      rw [saveCve_weaknesses_eq db1, saveCve_weaknesses_eq db2, List.filter_append,
        List.filter_append, hb1, hb2]
    · have hb1 := filter_ne_then_eq_nil (fun x : ReferenceRow => x.cve_id) r.cve_id
        db1.cve_references
      have hb2 := filter_ne_then_eq_nil (fun x : ReferenceRow => x.cve_id) r.cve_id
        db2.cve_references
      rw [saveCve_references_eq db1, saveCve_references_eq db2, List.filter_append,
        List.filter_append, hb1, hb2]
  · intro db cve_id product_name vendor_name
    exact ⟨rfl, rfl, rfl, rfl⟩

/-- C3: the update-only build path fetches details exactly for the
discovered IDs not already stored for the vendor (D \ S), and every stored
CVE of that vendor that is not rediscovered keeps all its rows in all four
tables unchanged — no save and no product mapping touches it.  The
hypothesis states the detail fetcher's contract: it returns one entry per
requested ID. -/
theorem buildVendorDataUpdate_incremental (db : Db) (vid vname : String)
    (mapping : List (String × List String))
    (fetchDetails : List String → List (String × Option FetchedDetail))
    (hkeys : (fetchDetails ((mapping.map Prod.fst).filter
        (fun c => c ∉ getExistingCveIds db (some vid)))).map Prod.fst =
      (mapping.map Prod.fst).filter (fun c => c ∉ getExistingCveIds db (some vid))) :
    (buildVendorDataUpdate db vid vname mapping fetchDetails).2 =
      (mapping.map Prod.fst).filter (fun c => c ∉ getExistingCveIds db (some vid)) ∧
    ∀ c ∈ getExistingCveIds db (some vid), c ∉ mapping.map Prod.fst →
      rowsFor c (buildVendorDataUpdate db vid vname mapping fetchDetails).1 =
        rowsFor c db := by
  constructor
  · rfl
  · intro c _ hcd
    show rowsFor c (processDetails db vid vname mapping
      (fetchDetails ((mapping.map Prod.fst).filter
        (fun x => x ∉ getExistingCveIds db (some vid))))) = rowsFor c db
    apply processDetails_rowsFor_ne
    rw [hkeys]
    intro hmem
    exact hcd (List.mem_filter.mp hmem).1

/-- Witness for C3: with `CVE-A` stored for vendor `v` and only `CVE-B`
discovered, the update run fetches exactly `CVE-B` and leaves `CVE-A`'s
rows untouched. -/
theorem buildVendorDataUpdate_incremental_witness :
    (buildVendorDataUpdate storedDbA "v" "Vendor" [("CVE-B", ["p"])]
        (fun l => l.map (fun c => (c, none)))).2 =
      ((([("CVE-B", ["p"])] : List (String × List String)).map Prod.fst).filter
        (fun c => c ∉ getExistingCveIds storedDbA (some "v"))) ∧
    rowsFor "CVE-A" (buildVendorDataUpdate storedDbA "v" "Vendor" [("CVE-B", ["p"])]
        (fun l => l.map (fun c => (c, none)))).1 = rowsFor "CVE-A" storedDbA := by
  have h := buildVendorDataUpdate_incremental storedDbA "v" "Vendor" [("CVE-B", ["p"])]
    (fun l => l.map (fun c => (c, none))) (by decide)
  exact ⟨h.1, h.2 "CVE-A" (by decide) (by decide)⟩

/-- C5: `normalize` reconciles descriptions and dates NVD-first.  Given
that the NVD phase succeeded with record state `t = (published,
lastModified, description)`: a non-empty NVD description is kept whatever
v5 says; a falsy NVD description falls back to the v5 English description
when v5 supplies one; when NVD left the default empty description and v5
has none, the result is the empty string.  The same NVD-first-else-v5 rule
holds for `published_date` and `last_modified_date`. -/
theorem normalize_nvd_first_fallback (cve_id : String) (nvd : Option NvdPayload)
    (v5 : Option V5Payload) (t : Option String × Option String × Option String)
    (hph : nvdPhase nvd = some t) :
    (∀ s : String, t.2.2 = some s → s ≠ "" →
      ∃ r, normalize cve_id nvd v5 = some r ∧ r.description_en = some s) ∧
    (∀ e : Option String, pyFalsy t.2.2 = true → v5Desc v5 = some e →
      ∃ r, normalize cve_id nvd v5 = some r ∧ r.description_en = e) ∧
    (t.2.2 = some "" → v5Desc v5 = none →
      ∃ r, normalize cve_id nvd v5 = some r ∧ r.description_en = some "") ∧
    (∀ s : String, t.1 = some s → s ≠ "" →
      ∃ r, normalize cve_id nvd v5 = some r ∧ r.published_date = some s) ∧
    (∀ p : V5Payload, pyFalsy t.1 = true → v5 = some p →
      ∃ r, normalize cve_id nvd v5 = some r ∧
        r.published_date = (p.cveMetadata.getD ⟨none, none⟩).datePublished) ∧
    (∀ s : String, t.2.1 = some s → s ≠ "" →
      ∃ r, normalize cve_id nvd v5 = some r ∧ r.last_modified_date = some s) ∧
    (∀ p : V5Payload, pyFalsy t.2.1 = true → v5 = some p →
      ∃ r, normalize cve_id nvd v5 = some r ∧
        r.last_modified_date = (p.cveMetadata.getD ⟨none, none⟩).dateUpdated) := by
  obtain ⟨pub1, mod1, desc1⟩ := t
  refine ⟨?_, ?_, ?_, ?_, ?_, ?_, ?_⟩
  · -- NVD description present and non-empty wins
    intro s hdesc hne
    dsimp only at hdesc
    have hfd : ¬(pyFalsy desc1 = true) := by
      rw [hdesc]
      simp [pyFalsy, hne]
    unfold normalize
    rw [hph]
    dsimp only
    cases v5 with
    | none => exact ⟨_, rfl, hdesc⟩
    | some p =>
      refine ⟨_, rfl, ?_⟩
      show (if pyFalsy desc1 = true then _ else desc1) = some s
      rw [if_neg hfd]
      exact hdesc
  · -- only v5 supplies a description
    intro e hf hv5d
    dsimp only at hf
    cases v5 with
    | none => simp [v5Desc] at hv5d
    | some p =>
      simp only [v5Desc] at hv5d
      rcases Option.map_eq_some'.mp hv5d with ⟨d, hd, hde⟩
      unfold normalize
      rw [hph]
      dsimp only
      refine ⟨_, rfl, ?_⟩
      show (if pyFalsy desc1 = true then _ else desc1) = e
      rw [if_pos hf, hd]
      exact hde
  · -- neither supplies a description
    intro hdesc hv5d
    dsimp only at hdesc
    cases v5 with
    | none =>
      unfold normalize
      rw [hph]
      dsimp only
      exact ⟨_, rfl, hdesc⟩
    | some p =>
      simp only [v5Desc] at hv5d
      have hfind := Option.map_eq_none'.mp hv5d
      unfold normalize
      rw [hph]
      dsimp only
      refine ⟨_, rfl, ?_⟩
      show (if pyFalsy desc1 = true then _ else desc1) = some ""
      rw [if_pos (by rw [hdesc]; rfl), hfind]
      exact hdesc
  · -- NVD published date present and non-empty wins
    intro s hpub hne
    dsimp only at hpub
    have hfd : ¬(pyFalsy pub1 = true) := by
      rw [hpub]
      simp [pyFalsy, hne]
    unfold normalize
    rw [hph]
    dsimp only
    cases v5 with
    | none => exact ⟨_, rfl, hpub⟩
    | some p =>
      refine ⟨_, rfl, ?_⟩
      show (if pyFalsy pub1 = true then _ else pub1) = some s
      rw [if_neg hfd]
      exact hpub
  · -- falsy NVD published date falls back to v5
    intro p hf hv
    dsimp only at hf
    subst hv
    unfold normalize
    rw [hph]
    dsimp only
    refine ⟨_, rfl, ?_⟩
    show (if pyFalsy pub1 = true then _ else pub1) = _
    rw [if_pos hf]
  · -- NVD last-modified date present and non-empty wins
    intro s hmod hne
    dsimp only at hmod
    have hfd : ¬(pyFalsy mod1 = true) := by
      rw [hmod]
      simp [pyFalsy, hne]
    unfold normalize
    rw [hph]
    dsimp only
    cases v5 with
    | none => exact ⟨_, rfl, hmod⟩
    | some p =>
      refine ⟨_, rfl, ?_⟩
      show (if pyFalsy mod1 = true then _ else mod1) = some s
      rw [if_neg hfd]
      exact hmod
  · -- falsy NVD last-modified date falls back to v5
    intro p hf hv
    dsimp only at hf
    subst hv
    unfold normalize
    rw [hph]
    dsimp only
    refine ⟨_, rfl, ?_⟩
    show (if pyFalsy mod1 = true then _ else mod1) = _
    rw [if_pos hf]

/-- Witness for C5: with both sources supplying a description (`"A"` from
NVD, `"B"` from v5), the normalized description is NVD's `"A"`. -/
theorem normalize_nvd_first_fallback_witness :
    ∃ r, normalize "CVE-1" (some nvdSampleA) (some v5SampleB) = some r ∧
      r.description_en = some "A" :=
  (normalize_nvd_first_fallback "CVE-1" (some nvdSampleA) (some v5SampleB)
    (some "2024-01-01", some "2024-02-01", some "A") rfl).1 "A" rfl (by decide)

end InsideCVE
